import Mathlib

/-!
Verification of the fan-out/aggregation core of the advanced-prompting
service (`core/prompting_service.py` and `core/gemini_client.py`).

The embedding models Python strings as Lean `String`s, with the Python
string primitives the code uses (`str.strip`, `str.split('\n')`,
`str.lower`, `in` substring test, slicing, `'\n'.join`) re-implemented
over `List Char` so that every definition is executable and
induction-friendly.  Remote generation calls are modelled by an oracle
`Nat → Except String String` giving the outcome (text or raised
exception message) of the k-th call issued; every operation returns its
result together with the ordered trace of `GenCall`s it issued.
-/

namespace PromptingSystem

/-- ASCII whitespace as stripped by Python's `str.strip()` (the repo's
strings never reach the non-ASCII whitespace code points). -/
def isPyWs (c : Char) : Bool :=
  c = ' ' || c = '\t' || c = '\n' || c = '\r' || c = '\x0b' || c = '\x0c'

/-- Python `str.strip()` on the character list. -/
def pyStripList (l : List Char) : List Char :=
  ((l.dropWhile isPyWs).reverse.dropWhile isPyWs).reverse

/-- Python `str.strip()`. -/
def pyStrip (s : String) : String := ⟨pyStripList s.data⟩

/-- Python `str.split('\n')` on the character list: like Lean's
`splitOn "\n"`, empty pieces included, never returns `[]`. -/
def pySplitNl : List Char → List (List Char)
  | [] => [[]]
  | c :: rest =>
    if c = '\n' then [] :: pySplitNl rest
    else
      match pySplitNl rest with
      | [] => [[c]]
      | l :: ls => (c :: l) :: ls

/-- Python `str.lower()` restricted to ASCII letters, per character. -/
def pyLowerChar (c : Char) : Char :=
  if 'A' ≤ c && c ≤ 'Z' then Char.ofNat (c.toNat + 32) else c

/-- Python `needle in hay` substring test, on character lists. -/
def listHasInfix (needle : List Char) : List Char → Bool
  | [] => needle.isEmpty
  | c :: rest => needle.isPrefixOf (c :: rest) || listHasInfix needle rest

/-- Python `needle in hay` substring test. -/
def pyIn (needle hay : String) : Bool := listHasInfix needle.data hay.data

/-- Python slicing `s[:n]` (first `n` code points). -/
def pyTake (n : Nat) (s : String) : String := ⟨s.data.take n⟩

/-- Python `'\n'.join(l)`. -/
def joinNl : List String → String
  | [] => ""
  | [x] => x
  | x :: y :: rest => x ++ "\n" ++ joinNl (y :: rest)

/-- The line predicate of `_extract_most_consistent_answer`:
`"most consistent" in line.lower() or "most reliable" in line.lower()`. -/
def kwL (line : List Char) : Bool :=
  listHasInfix "most consistent".data (line.map pyLowerChar) ||
  listHasInfix "most reliable".data (line.map pyLowerChar)

/-- The meaningful-line predicate of `_extract_most_consistent_answer`:
`line.strip() and len(line.strip()) > 10`. -/
def meaningfulL (line : List Char) : Bool :=
  !(pyStripList line).isEmpty && decide (10 < (pyStripList line).length)

/-- The body of `_extract_most_consistent_answer` over the split
lines: first keyword line stripped, else last meaningful line stripped,
else the sentinel. -/
def extractLines (lines : List (List Char)) : List Char :=
  match lines.find? kwL with
  | some line => pyStripList line
  | none =>
    match ((lines.filter meaningfulL).map pyStripList).getLast? with
    | some l => l
    | none => "Analysis inconclusive".data

/-- `PromptingService._extract_most_consistent_answer`
(core/prompting_service.py, lines 481-490). -/
def extract_most_consistent_answer (analysis : String) : String :=
  ⟨extractLines (pySplitNl analysis.data)⟩

/-- The extraction rule exactly as claim C1 words it, built from the
spec's sentences for comparison with the source function: the first
keyword line is returned exactly as it appears in the input; otherwise
the last line whose trimmed length exceeds 10, trimmed; otherwise the
sentinel. -/
def claimedExtract (s : String) : String :=
  let lines := pySplitNl s.data
  match lines.find? kwL with
  | some line => ⟨line⟩
  | none =>
    match ((lines.map pyStripList).filter (fun l => decide (10 < l.length))).getLast? with
    | some l => ⟨l⟩
    | none => "Analysis inconclusive"

/-- Claim C1 amended: as `claimedExtract`, except that the first
keyword line is returned stripped. -/
def claimedExtractStripped (s : String) : String :=
  let lines := pySplitNl s.data
  match lines.find? kwL with
  | some line => ⟨pyStripList line⟩
  | none =>
    match ((lines.map pyStripList).filter (fun l => decide (10 < l.length))).getLast? with
    | some l => ⟨l⟩
    | none => "Analysis inconclusive"

/-- Apply `g` to the last element of a list (helper for reasoning
about what appending a character to a string does to its lines). -/
def onLast (g : List Char → List Char) : List (List Char) → List (List Char)
  | [] => []
  | [x] => [g x]
  | x :: y :: t => x :: onLast g (y :: t)

/-- `needle` occurs as a contiguous substring of `hay`. -/
def OccursIn (needle hay : String) : Prop :=
  ∃ u v, hay.data = u ++ needle.data ++ v

/-! ## The Gemini client (`core/gemini_client.py`) -/

/-- Outcome of one underlying remote API call inside
`GeminiClient.generate_response`: it returns the candidate text, raises
an exception carrying a message, or exceeds the 20-second wall-clock
bound of `_with_timeout` (modelled as the abstract outcome `hang`,
since real time is outside the embedding). -/
inductive RemoteOutcome where
  | ok (text : String)
  | err (msg : String)
  | hang
deriving Repr, DecidableEq

/-- The message of the exception `_with_timeout` raises with its
default `timeout_seconds=20` (core/gemini_client.py, line 66). -/
def timeoutMessage : String :=
  "Request timed out after 20 seconds. Please try a simpler query or check your API connection."

/-- The message `generate_response` raises on quota exhaustion
(core/gemini_client.py, line 132). -/
def rateLimitMessage : String :=
  "Rate limit exceeded. Please wait before making another request."

/-- `GeminiClient._with_timeout` (core/gemini_client.py, lines 48-71):
re-raises the worker's exception, raises the timeout exception when the
join times out, and otherwise returns the result. -/
def with_timeout : RemoteOutcome → Except String String
  | .ok t => .ok t
  | .err m => .error m
  | .hang => .error timeoutMessage

/-- `GeminiClient.generate_response` (core/gemini_client.py, lines
73-134): performs the call under `_with_timeout`; any exception
(including the timeout one) is caught and classified by message:
quota-exhaustion markers give the rate-limit message, anything else is
wrapped as a generation failure. -/
def generate_response (outcome : RemoteOutcome) : Except String String :=
  match with_timeout outcome with
  | .ok t => .ok t
  | .error m =>
    if pyIn "429" m || pyIn "RESOURCE_EXHAUSTED" m then
      .error rateLimitMessage
    else
      .error ("Failed to generate response: " ++ m)

/-- One generation request issued to the model: prompt text and
sampling temperature (temperatures are exact decimal literals in the
source, modelled as rationals). -/
structure GenCall where
  prompt : String
  temperature : Rat
deriving Repr, DecidableEq

/-- Oracle giving the outcome of the k-th generation call issued by an
operation: the generated text, or the message of the exception the call
raised. -/
def Oracle : Type := Nat → Except String String

/-- An oracle whose calls all succeed, returning `f k` on call `k`. -/
def okOracle (f : Nat → String) : Oracle := fun k => .ok (f k)

/-- `asyncio.gather` on the results of the spawned tasks: all results
in task-submission order when every task succeeds, otherwise the
operation fails with a failing task's exception. -/
def gatherExcept : List (Except String String) → Except String (List String)
  | [] => .ok []
  | .error e :: _ => .error e
  | .ok s :: rest => (gatherExcept rest).map (fun l => s :: l)

/-- `GeminiClient.generate_multiple_responses` (core/gemini_client.py,
lines 136-172): spawns `n` tasks on the same prompt and temperature,
gathers them, and wraps any failure's message. Returns the result
together with the trace of issued calls. -/
def generate_multiple_responses (o : Oracle) (k : Nat) (prompt : String)
    (n : Nat) (temp : Rat) : Except String (List String) × List GenCall :=
  let results := (List.range n).map (fun i => o (k + i))
  let calls := List.replicate n (GenCall.mk prompt temp)
  match gatherExcept results with
  | .ok rs => (.ok rs, calls)
  | .error e => (.error ("Failed to generate multiple responses: " ++ e), calls)

/-! ## The prompting service (`core/prompting_service.py`) -/

/-- One explored tree-of-thought approach, as appended by
`tree_of_thought_explore` (lines 327-331). -/
structure Approach where
  approach_number : Nat
  approach_name : String
  solution : String
deriving Repr, DecidableEq

/-- The value returned by `_select_best_approach` (lines 384-392). -/
structure BestApproach where
  evaluation : String
  selection_criteria : List String
deriving Repr, DecidableEq

/-- The `output` dictionary of `tree_of_thought_explore` (lines 342-346). -/
structure TreeOutput where
  explored_approaches : List Approach
  best_approach : BestApproach
  total_approaches : Nat
deriving Repr, DecidableEq

/-- The value returned by `_analyze_consistency` (lines 475-479). -/
structure ConsistencyAnalysis where
  analysis : String
  response_count : Nat
  most_consistent_answer : String
deriving Repr, DecidableEq

/-- The `output` dictionary of `self_consistency_validate`
(lines 432-437). -/
structure SCOutput where
  all_responses : List String
  consistency_analysis : ConsistencyAnalysis
  final_answer : String
  num_samples : Nat
deriving Repr, DecidableEq

/-- The fixed approach-name list of `tree_of_thought_explore`
(lines 303-307). -/
def approach_names : List String :=
  ["Direct Analytical Method", "Creative Innovation Method", "Systematic Process Method"]

/-- The per-branch prompt of `tree_of_thought_explore` (lines 311-320),
for 0-based loop index `i` and `name = approach_names[i]`. -/
def approachPrompt (problem : String) (i : Nat) (name : String) : String :=
  "Problem: " ++ problem ++
  "\n\nI'll use approach " ++ toString (i + 1) ++ ": " ++ name ++
  "\n\nLet me work through this step by step:\n1. First, I'll analyze the problem from this perspective\n2. Then I'll develop a solution strategy\n3. Finally, I'll evaluate the effectiveness\n\nWorking through approach " ++
  toString (i + 1) ++ ":"

/-- Number of loop iterations of `tree_of_thought_explore`:
`range(min(max_approaches, len(approach_names)))` (line 310); an empty
range when the minimum is not positive. -/
def numApproaches (max_approaches : Int) : Nat :=
  (min max_approaches (approach_names.length : Int)).toNat

/-- The sequential await-per-iteration generation loop of
`tree_of_thought_explore` (lines 310-331): `i` is the 0-based loop
index, `k` the oracle index of the next call; an exception raised by a
call aborts the loop, calls already made stay in the trace. -/
def exploreLoop (o : Oracle) (problem : String) :
    Nat → Nat → List String → Except String (List Approach) × List GenCall
  | _, _, [] => (.ok [], [])
  | i, k, name :: rest =>
    let c : GenCall := GenCall.mk (approachPrompt problem i name) 0.6
    match o k with
    | .error e => (.error e, [c])
    | .ok text =>
      match exploreLoop o problem (i + 1) (k + 1) rest with
      | (r, cs) =>
        ((r.map (fun as => Approach.mk (i + 1) name (pyStrip text) :: as)), c :: cs)

/-- One joined block of the evaluation prompt of
`_select_best_approach` (line 369): approach header, newline, and the
solution truncated to its first 200 characters with a `...` marker. -/
def approachBlock (a : Approach) : String :=
  "Approach " ++ toString a.approach_number ++ ": " ++ a.approach_name ++
  "\n" ++ "Solution: " ++ pyTake 200 a.solution ++ "..."

/-- The evaluation prompt of `_select_best_approach` (lines 365-377). -/
def selectBestPrompt (problem : String) (approaches : List Approach) : String :=
  "Problem: " ++ problem ++
  "\n\nI have explored these different approaches:\n\n" ++
  joinNl (approaches.map approachBlock) ++
  "\n\nPlease evaluate these approaches and select the best one based on:\n1. Effectiveness in solving the problem\n2. Feasibility of implementation\n3. Completeness of the solution\n4. Innovation and creativity\n\nBest approach selection:"

/-- `PromptingService._select_best_approach` (lines 359-392): one
synthesis call at temperature 0.3; the stripped output becomes the
evaluation, next to the fixed criteria list. -/
def select_best_approach (o : Oracle) (k : Nat) (problem : String)
    (approaches : List Approach) : Except String BestApproach × List GenCall :=
  let c : GenCall := GenCall.mk (selectBestPrompt problem approaches) 0.3
  match o k with
  | .error e => (.error e, [c])
  | .ok ev =>
    (.ok (BestApproach.mk (pyStrip ev)
      ["effectiveness", "feasibility", "completeness", "innovation"]), [c])

/-- `PromptingService.tree_of_thought_explore` (lines 284-357):
sequential fan-out over the capped approach list, then the synthesis
call; any exception is wrapped as an exploration failure. -/
def tree_of_thought_explore (o : Oracle) (k : Nat) (problem : String)
    (max_approaches : Int) : Except String TreeOutput × List GenCall :=
  let names := approach_names.take (numApproaches max_approaches)
  match exploreLoop o problem 0 k names with
  | (.error e, cs) => (.error ("Tree-of-thought exploration failed: " ++ e), cs)
  | (.ok approaches, cs) =>
    match select_best_approach o (k + names.length) problem approaches with
    | (.error e, cs') =>
      (.error ("Tree-of-thought exploration failed: " ++ e), cs ++ cs')
    | (.ok best, cs') =>
      (.ok (TreeOutput.mk approaches best approaches.length), cs ++ cs')

/-- `self_consistency.GENERAL_CONSISTENCY.format(question=question)`
(prompts/self_consistency.py, lines 7-11). -/
def generalConsistencyPrompt (question : String) : String :=
  "Please answer this question carefully and accurately.\n\nQuestion: " ++
  question ++
  "\n\nThink through this step by step and provide your best answer. Be clear and specific in your response."

/-- One joined block of the analysis prompt of `_analyze_consistency`
(line 460), for 0-based index `i`. -/
def responseBlock (p : Nat × String) : String :=
  "Response " ++ toString (p.1 + 1) ++ ": " ++ p.2

/-- The analysis prompt of `_analyze_consistency` (lines 456-468). -/
def analyzeConsistencyPrompt (question : String) (responses : List String) : String :=
  "Question: " ++ question ++
  "\n\nI have these " ++ toString responses.length ++
  " different responses:\n\n" ++
  joinNl (responses.enum.map responseBlock) ++
  "\n\nPlease analyze these responses for consistency:\n1. What are the common themes or answers?\n2. What are the main differences?\n3. Which response seems most accurate and complete?\n4. What is the most consistent answer across all responses?\n\nConsistency analysis:"

/-- `PromptingService._analyze_consistency` (lines 450-479): one
synthesis call at temperature 0.2; the stripped output is the analysis
and the heuristic extraction runs on the raw output. -/
def analyze_consistency (o : Oracle) (k : Nat) (question : String)
    (responses : List String) : Except String ConsistencyAnalysis × List GenCall :=
  let c : GenCall := GenCall.mk (analyzeConsistencyPrompt question responses) 0.2
  match o k with
  | .error e => (.error e, [c])
  | .ok analysis =>
    (.ok (ConsistencyAnalysis.mk (pyStrip analysis) responses.length
      (extract_most_consistent_answer analysis)), [c])

/-- `PromptingService.self_consistency_validate` (lines 396-448):
concurrent fan-out of `num_samples` identical prompts at temperature
0.7, then the consistency-analysis synthesis call; any exception is
wrapped as a validation failure. -/
def self_consistency_validate (o : Oracle) (k : Nat) (question : String)
    (num_samples : Nat) : Except String SCOutput × List GenCall :=
  let prompt := generalConsistencyPrompt question
  match generate_multiple_responses o k prompt num_samples 0.7 with
  | (.error e, cs) => (.error ("Self-consistency validation failed: " ++ e), cs)
  | (.ok responses, cs) =>
    match analyze_consistency o (k + num_samples) question responses with
    | (.error e, cs') =>
      (.error ("Self-consistency validation failed: " ++ e), cs ++ cs')
    | (.ok ca, cs') =>
      (.ok (SCOutput.mk responses ca ca.most_consistent_answer num_samples), cs ++ cs')

/-- The data of an approach that the tree-of-thought synthesis prompt
can depend on: its number, its name, and the first 200 characters of
its solution. -/
def approachPreview (a : Approach) : Nat × String × String :=
  (a.approach_number, a.approach_name, pyTake 200 a.solution)

/-- `approachBlock` as a function of the preview alone. -/
def blockOfPreview (p : Nat × String × String) : String :=
  "Approach " ++ toString p.1 ++ ": " ++ p.2.1 ++
  "\n" ++ "Solution: " ++ p.2.2 ++ "..."

/-! ## Basic evaluation lemmas -/

theorem numApproaches_le_three (m : Int) : numApproaches m ≤ 3 := by
  simp only [numApproaches, approach_names, List.length_cons, List.length_nil]
  omega

theorem numApproaches_of_gt (m : Int) (h : 3 < m) : numApproaches m = 3 := by
  simp only [numApproaches, approach_names, List.length_cons, List.length_nil]
  omega

theorem numApproaches_of_nonpos (m : Int) (h : m ≤ 0) : numApproaches m = 0 := by
  simp only [numApproaches, approach_names, List.length_cons, List.length_nil]
  omega

theorem take_approach_names_length (m : Int) :
    (approach_names.take (numApproaches m)).length = numApproaches m := by
  have h := numApproaches_le_three m
  simp only [List.length_take, approach_names, List.length_cons, List.length_nil]
  omega

theorem exploreLoop_okOracle (f : Nat → String) (problem : String) :
    ∀ (names : List String) (i k : Nat),
    exploreLoop (okOracle f) problem i k names =
      (.ok ((List.range names.length).map fun j =>
          Approach.mk (i + j + 1) (names.getD j "") (pyStrip (f (k + j)))),
       (List.range names.length).map fun j =>
          GenCall.mk (approachPrompt problem (i + j) (names.getD j "")) 0.6) := by
  intro names
  induction names with
  | nil => intro i k; rfl
  | cons name rest ih =>
    intro i k
    simp only [exploreLoop, okOracle]
    rw [ih (i + 1) (k + 1)]
    simp only [Except.map, List.length_cons, List.range_succ_eq_map, List.map_cons,
      List.map_map]
    refine congrArg₂ Prod.mk (congrArg Except.ok (congrArg₂ List.cons ?_ ?_))
      (congrArg₂ List.cons ?_ ?_)
    · simp
    · refine List.map_congr_left fun j _ => ?_
      simp only [Function.comp_apply, List.getD_cons_succ]
      have h1 : i + 1 + j + 1 = i + (j + 1) + 1 := by omega
      have h2 : k + 1 + j = k + (j + 1) := by omega
      rw [h1, h2]
    · simp
    · refine List.map_congr_left fun j _ => ?_
      simp only [Function.comp_apply, List.getD_cons_succ]
      have h1 : i + 1 + j = i + (j + 1) := by omega
      rw [h1]

theorem select_best_okOracle (f : Nat → String) (k : Nat) (problem : String)
    (approaches : List Approach) :
    select_best_approach (okOracle f) k problem approaches =
      (.ok (BestApproach.mk (pyStrip (f k))
        ["effectiveness", "feasibility", "completeness", "innovation"]),
       [GenCall.mk (selectBestPrompt problem approaches) 0.3]) := rfl

/-! ## Claim theorems: C6, C8, C2, C10 -/

/-- C6: synthesis-prompt construction is deterministic — for the same
problem/question and candidate texts, the prompt trace of the
aggregation step does not depend on the oracle (the model's outputs) or
on the call counter, so two runs issue a byte-identical synthesis
prompt. -/
theorem claim_C6_synthesis_prompt_deterministic
    (problem question : String) (approaches : List Approach)
    (responses : List String) (o₁ o₂ : Oracle) (k₁ k₂ : Nat) :
    (select_best_approach o₁ k₁ problem approaches).2 =
      (select_best_approach o₂ k₂ problem approaches).2 ∧
    (analyze_consistency o₁ k₁ question responses).2 =
      (analyze_consistency o₂ k₂ question responses).2 := by
  constructor
  · unfold select_best_approach
    cases o₁ k₁ <;> cases o₂ k₂ <;> rfl
  · unfold analyze_consistency
    cases o₁ k₁ <;> cases o₂ k₂ <;> rfl

/-- C8 counterexample: when the 20-second bound is exceeded,
`generate_response` does not raise the timeout error as a distinct
class — the timeout exception is caught by the same handler and
re-wrapped with the generation-failure prefix, exactly as a plain
remote error with the same message would be. -/
theorem claim_C8_counterexample :
    generate_response RemoteOutcome.hang =
      .error ("Failed to generate response: " ++ timeoutMessage) ∧
    generate_response RemoteOutcome.hang =
      generate_response (RemoteOutcome.err timeoutMessage) ∧
    generate_response RemoteOutcome.hang ≠ .error timeoutMessage := by
  refine ⟨rfl, rfl, fun h => ?_⟩
  injection h with h'
  exact absurd h' (by decide)

/-- C8 amended: `generate_response` classifies failures by message —
quota markers ("429"/"RESOURCE_EXHAUSTED") give the rate-limit error,
any other remote error is wrapped with the generation-failure prefix,
and exceeding the 20-second bound also produces a generation-failure
error wrapping the timeout message (not a distinct timeout class);
successful calls return their text. -/
theorem claim_C8_amended_error_classification :
    (∀ m, (pyIn "429" m || pyIn "RESOURCE_EXHAUSTED" m) = true →
      generate_response (RemoteOutcome.err m) = .error rateLimitMessage) ∧
    (∀ m, (pyIn "429" m || pyIn "RESOURCE_EXHAUSTED" m) = false →
      generate_response (RemoteOutcome.err m) =
        .error ("Failed to generate response: " ++ m)) ∧
    generate_response RemoteOutcome.hang =
      .error ("Failed to generate response: " ++ timeoutMessage) ∧
    (∀ t, generate_response (RemoteOutcome.ok t) = .ok t) := by
  refine ⟨?_, ?_, ?_, fun t => rfl⟩
  · intro m h; simp [generate_response, with_timeout, h]
  · intro m h; simp [generate_response, with_timeout, h]
  · have h : (pyIn "429" timeoutMessage || pyIn "RESOURCE_EXHAUSTED" timeoutMessage) = false := by
      decide
    simp [generate_response, with_timeout, h]

/-- C8 witness: concrete classifications. -/
theorem claim_C8_amended_witness :
    generate_response (RemoteOutcome.err "quota RESOURCE_EXHAUSTED hit") =
      .error rateLimitMessage ∧
    generate_response (RemoteOutcome.err "boom") =
      .error ("Failed to generate response: " ++ "boom") := by
  exact ⟨claim_C8_amended_error_classification.1 _ (by decide),
    claim_C8_amended_error_classification.2.1 "boom" (by decide)⟩

/-- C2: when `max_approaches` exceeds the 3 named approaches, a
successful exploration produces exactly 3 candidates — the approach
count is capped to the name list and the names are exactly the fixed
list, with no synthetic names invented. -/
theorem claim_C2_approach_count_capped (f : Nat → String) (k : Nat)
    (problem : String) (m : Int) (h : 3 < m) :
    ∃ out, (tree_of_thought_explore (okOracle f) k problem m).1 = .ok out ∧
      out.explored_approaches.length = 3 ∧
      out.total_approaches = 3 ∧
      out.explored_approaches.map Approach.approach_name = approach_names := by
  have hn : numApproaches m = 3 := numApproaches_of_gt m h
  simp only [tree_of_thought_explore, hn]
  rw [show approach_names.take 3 = approach_names from rfl]
  rw [exploreLoop_okOracle]
  refine ⟨_, rfl, ?_, ?_, ?_⟩ <;>
    simp [approach_names, List.range_succ, List.getD]

/-- C2 witness: `max_approaches = 5` yields exactly 3 candidates. -/
theorem claim_C2_witness :
    ∃ out, (tree_of_thought_explore (okOracle fun _ => "sol") 0 "P" 5).1 = .ok out ∧
      out.explored_approaches.length = 3 ∧
      out.total_approaches = 3 ∧
      out.explored_approaches.map Approach.approach_name = approach_names :=
  claim_C2_approach_count_capped (fun _ => "sol") 0 "P" 5 (by omega)

/-- C10: `tree_of_thought_explore` enforces no lower bound on
`max_approaches` — for any non-positive value it succeeds (no
validation error), returns an empty approach list with
`total_approaches = 0`, and still issues exactly the one synthesis
call built over the empty candidate set. -/
theorem claim_C10_no_lower_bound (f : Nat → String) (k : Nat)
    (problem : String) (m : Int) (h : m ≤ 0) :
    (tree_of_thought_explore (okOracle f) k problem m).1 =
      .ok (TreeOutput.mk []
        (BestApproach.mk (pyStrip (f k))
          ["effectiveness", "feasibility", "completeness", "innovation"]) 0) ∧
    (tree_of_thought_explore (okOracle f) k problem m).2 =
      [GenCall.mk (selectBestPrompt problem []) 0.3] := by
  have hn : numApproaches m = 0 := numApproaches_of_nonpos m h
  simp only [tree_of_thought_explore, hn, List.take_zero]
  rw [show exploreLoop (okOracle f) problem 0 k [] = (.ok [], []) from rfl]
  simp [select_best_okOracle]

/-! ## Fan-out lemmas for the gather model -/

theorem gatherExcept_map_ok (l : List String) :
    gatherExcept (l.map Except.ok) = .ok l := by
  induction l with
  | nil => rfl
  | cons x t ih => simp [gatherExcept, ih, Except.map]

theorem gatherExcept_error :
    ∀ l : List (Except String String), (∃ x ∈ l, ∃ e, x = .error e) →
      ∃ e, gatherExcept l = .error e := by
  intro l
  induction l with
  | nil => rintro ⟨x, hx, _⟩; simp at hx
  | cons x t ih =>
    rintro ⟨y, hy, e, he⟩
    rcases List.mem_cons.mp hy with h | h
    · subst h; subst he; exact ⟨e, rfl⟩
    · cases x with
      | error e' => exact ⟨e', rfl⟩
      | ok s =>
        obtain ⟨e'', he''⟩ := ih ⟨y, h, e, he⟩
        exact ⟨e'', by simp [gatherExcept, he'', Except.map]⟩

theorem gatherExcept_all_ok :
    ∀ l : List (Except String String), (∀ x ∈ l, ∃ s, x = .ok s) →
      ∃ rs, gatherExcept l = .ok rs := by
  intro l
  induction l with
  | nil => exact fun _ => ⟨[], rfl⟩
  | cons x t ih =>
    intro h
    obtain ⟨s, hs⟩ := h x (List.mem_cons_self x t)
    subst hs
    obtain ⟨rs, hrs⟩ := ih fun y hy => h y (List.mem_cons_of_mem _ hy)
    exact ⟨s :: rs, by simp [gatherExcept, hrs, Except.map]⟩

theorem generate_multiple_okOracle (f : Nat → String) (k : Nat)
    (prompt : String) (n : Nat) (temp : Rat) :
    generate_multiple_responses (okOracle f) k prompt n temp =
      (.ok ((List.range n).map fun i => f (k + i)),
       List.replicate n (GenCall.mk prompt temp)) := by
  unfold generate_multiple_responses
  have h : (List.range n).map (fun i => okOracle f (k + i)) =
      ((List.range n).map fun i => f (k + i)).map Except.ok := by
    simp [okOracle, List.map_map, Function.comp]
  rw [h]
  simp only [gatherExcept_map_ok]

theorem self_consistency_okOracle (f : Nat → String) (k : Nat)
    (question : String) (N : Nat) :
    self_consistency_validate (okOracle f) k question N =
      (.ok (SCOutput.mk ((List.range N).map fun i => f (k + i))
        (ConsistencyAnalysis.mk (pyStrip (f (k + N))) N
          (extract_most_consistent_answer (f (k + N))))
        (extract_most_consistent_answer (f (k + N))) N),
       List.replicate N (GenCall.mk (generalConsistencyPrompt question) 0.7) ++
         [GenCall.mk
           (analyzeConsistencyPrompt question ((List.range N).map fun i => f (k + i)))
           0.2]) := by
  simp only [self_consistency_validate, generate_multiple_okOracle]
  simp [analyze_consistency, okOracle]

/-- C4: a successful `self_consistency_validate` issues exactly `N`
sampling calls, every one with the identical prompt built from the
general-consistency template on the question, all at temperature 0.7,
and returns exactly the `N` raw texts in task-submission order. -/
theorem claim_C4_sampling_fanout (f : Nat → String) (k : Nat)
    (question : String) (N : Nat) (_h1 : 2 ≤ N) (_h2 : N ≤ 5) :
    (self_consistency_validate (okOracle f) k question N).2 =
      List.replicate N (GenCall.mk (generalConsistencyPrompt question) 0.7) ++
        [GenCall.mk
          (analyzeConsistencyPrompt question ((List.range N).map fun i => f (k + i)))
          0.2] ∧
    ∃ out, (self_consistency_validate (okOracle f) k question N).1 = .ok out ∧
      out.all_responses = (List.range N).map (fun i => f (k + i)) ∧
      out.all_responses.length = N := by
  rw [self_consistency_okOracle]
  exact ⟨rfl, _, rfl, rfl, by simp⟩

/-- C4 witness: three samples on a concrete oracle. -/
theorem claim_C4_witness :
    (self_consistency_validate (okOracle fun i => toString i) 0 "Q" 3).2 =
      List.replicate 3 (GenCall.mk (generalConsistencyPrompt "Q") 0.7) ++
        [GenCall.mk
          (analyzeConsistencyPrompt "Q" ((List.range 3).map fun i => toString (0 + i)))
          0.2] ∧
    ∃ out, (self_consistency_validate (okOracle fun i => toString i) 0 "Q" 3).1 = .ok out ∧
      out.all_responses = (List.range 3).map (fun i => toString (0 + i)) ∧
      out.all_responses.length = 3 :=
  claim_C4_sampling_fanout (fun i => toString i) 0 "Q" 3 (by omega) (by omega)

/-! ## Error-propagation lemmas -/

theorem exploreLoop_error (o : Oracle) (problem : String) :
    ∀ (names : List String) (i k : Nat),
    (∃ j, j < names.length ∧ ∃ e, o (k + j) = .error e) →
    ∃ e, (exploreLoop o problem i k names).1 = .error e := by
  intro names
  induction names with
  | nil => rintro i k ⟨j, hj, _⟩; simp at hj
  | cons name rest ih =>
    rintro i k ⟨j, hj, e, he⟩
    simp only [exploreLoop]
    cases hok : o k with
    | error e' => exact ⟨e', rfl⟩
    | ok text =>
      have hj0 : j ≠ 0 := by
        rintro rfl
        rw [Nat.add_zero, hok] at he
        exact Except.noConfusion he
      obtain ⟨j', rfl⟩ : ∃ j', j = j' + 1 := ⟨j - 1, by omega⟩
      obtain ⟨e', he'⟩ := ih (i + 1) (k + 1)
        ⟨j', by simpa using hj, e, by rw [← he]; congr 1; omega⟩
      cases hrec : exploreLoop o problem (i + 1) (k + 1) rest with
      | mk r cs =>
        rw [hrec] at he'
        simp only at he'
        subst he'
        exact ⟨e', by simp [Except.map]⟩

theorem exploreLoop_all_ok (o : Oracle) (problem : String) :
    ∀ (names : List String) (i k : Nat),
    (∀ j, j < names.length → ∃ s, o (k + j) = .ok s) →
    ∃ as, (exploreLoop o problem i k names).1 = .ok as := by
  intro names
  induction names with
  | nil => exact fun i k _ => ⟨[], rfl⟩
  | cons name rest ih =>
    intro i k h
    obtain ⟨s, hs⟩ := h 0 (by simp)
    rw [Nat.add_zero] at hs
    simp only [exploreLoop, hs]
    obtain ⟨as, has⟩ := ih (i + 1) (k + 1)
      (fun j hj => by
        obtain ⟨s', hs'⟩ := h (j + 1) (by simpa using hj)
        exact ⟨s', by rw [← hs']; congr 1; omega⟩)
    cases hrec : exploreLoop o problem (i + 1) (k + 1) rest with
    | mk r cs =>
      rw [hrec] at has
      simp only at has
      subst has
      exact ⟨Approach.mk (i + 1) name (pyStrip s) :: as, by simp [Except.map]⟩

theorem select_best_of_error (o : Oracle) (k : Nat) (problem : String)
    (approaches : List Approach) (e : String) (h : o k = .error e) :
    select_best_approach o k problem approaches =
      (.error e, [GenCall.mk (selectBestPrompt problem approaches) 0.3]) := by
  unfold select_best_approach
  rw [h]

theorem analyze_of_error (o : Oracle) (k : Nat) (question : String)
    (responses : List String) (e : String) (h : o k = .error e) :
    analyze_consistency o k question responses =
      (.error e, [GenCall.mk (analyzeConsistencyPrompt question responses) 0.2]) := by
  unfold analyze_consistency
  rw [h]

/-- C5: any generation failure during fan-out makes the whole
operation fail with an error and no partial result, for both
`tree_of_thought_explore` and `self_consistency_validate`; and a
failure of the subsequent synthesis call likewise fails the whole
operation even though fan-out already succeeded. -/
theorem claim_C5_error_propagation (o : Oracle) (k : Nat)
    (problem question : String) (m : Int) (N : Nat) :
    ((∃ j, j < numApproaches m ∧ ∃ e, o (k + j) = .error e) →
      ∃ msg, (tree_of_thought_explore o k problem m).1 = .error msg) ∧
    ((∀ j, j < numApproaches m → ∃ s, o (k + j) = .ok s) →
      (∃ e, o (k + numApproaches m) = .error e) →
      ∃ msg, (tree_of_thought_explore o k problem m).1 = .error msg) ∧
    ((∃ j, j < N ∧ ∃ e, o (k + j) = .error e) →
      ∃ msg, (self_consistency_validate o k question N).1 = .error msg) ∧
    ((∀ j, j < N → ∃ s, o (k + j) = .ok s) →
      (∃ e, o (k + N) = .error e) →
      ∃ msg, (self_consistency_validate o k question N).1 = .error msg) := by
  have hlen := take_approach_names_length m
  refine ⟨?_, ?_, ?_, ?_⟩
  · rintro ⟨j, hj, e, he⟩
    obtain ⟨e', he'⟩ := exploreLoop_error o problem
      (approach_names.take (numApproaches m)) 0 k ⟨j, by rw [hlen]; exact hj, e, he⟩
    simp only [tree_of_thought_explore]
    cases hrec : exploreLoop o problem 0 k (approach_names.take (numApproaches m)) with
    | mk r cs =>
      rw [hrec] at he'
      simp only at he'
      subst he'
      exact ⟨_, rfl⟩
  · rintro hall ⟨e, he⟩
    obtain ⟨as, has⟩ := exploreLoop_all_ok o problem
      (approach_names.take (numApproaches m)) 0 k (by rw [hlen]; exact hall)
    simp only [tree_of_thought_explore, hlen]
    cases hrec : exploreLoop o problem 0 k (approach_names.take (numApproaches m)) with
    | mk r cs =>
      rw [hrec] at has
      simp only at has
      subst has
      refine ⟨"Tree-of-thought exploration failed: " ++ e, ?_⟩
      simp only [select_best_of_error o (k + numApproaches m) problem as e he]
  · rintro ⟨j, hj, e, he⟩
    have hmem : o (k + j) ∈ (List.range N).map (fun i => o (k + i)) :=
      List.mem_map_of_mem _ (List.mem_range.mpr hj)
    obtain ⟨e', he'⟩ := gatherExcept_error _ ⟨o (k + j), hmem, e, he⟩
    simp only [self_consistency_validate, generate_multiple_responses]
    rw [he']
    exact ⟨_, rfl⟩
  · rintro hall ⟨e, he⟩
    obtain ⟨rs, hrs⟩ := gatherExcept_all_ok ((List.range N).map (fun i => o (k + i)))
      (by
        intro x hx
        obtain ⟨j, hj, rfl⟩ := List.mem_map.mp hx
        exact hall j (List.mem_range.mp hj))
    simp only [self_consistency_validate, generate_multiple_responses]
    rw [hrs]
    refine ⟨"Self-consistency validation failed: " ++ e, ?_⟩
    simp only [analyze_of_error o (k + N) question rs e he]

/-- C5 witness: concrete failing oracles for all four propagation
paths. -/
theorem claim_C5_witness :
    (∃ msg, (tree_of_thought_explore
      (fun i => if i = 1 then .error "boom" else .ok "txt") 0 "P" 3).1 = .error msg) ∧
    (∃ msg, (tree_of_thought_explore
      (fun i => if i = 3 then .error "boom" else .ok "txt") 0 "P" 3).1 = .error msg) ∧
    (∃ msg, (self_consistency_validate
      (fun i => if i = 1 then .error "boom" else .ok "txt") 0 "Q" 3).1 = .error msg) ∧
    (∃ msg, (self_consistency_validate
      (fun i => if i = 3 then .error "boom" else .ok "txt") 0 "Q" 3).1 = .error msg) := by
  refine ⟨?_, ?_, ?_, ?_⟩
  · exact (claim_C5_error_propagation
      (fun i => if i = 1 then .error "boom" else .ok "txt") 0 "P" "Q" 3 3).1
      ⟨1, by decide, "boom", rfl⟩
  · exact (claim_C5_error_propagation
      (fun i => if i = 3 then .error "boom" else .ok "txt") 0 "P" "Q" 3 3).2.1
      (fun j hj => ⟨"txt", by
        have h3 : numApproaches (3 : Int) = 3 := by decide
        rw [h3] at hj
        interval_cases j <;> rfl⟩) ⟨"boom", rfl⟩
  · exact (claim_C5_error_propagation
      (fun i => if i = 1 then .error "boom" else .ok "txt") 0 "P" "Q" 3 3).2.2.1
      ⟨1, by omega, "boom", rfl⟩
  · exact (claim_C5_error_propagation
      (fun i => if i = 3 then .error "boom" else .ok "txt") 0 "P" "Q" 3 3).2.2.2
      (fun j hj => ⟨"txt", by interval_cases j <;> rfl⟩) ⟨"boom", rfl⟩

/-! ## Claim C3: structure of a successful exploration -/

/-- C3 counterexample: the synthesis evaluation is not the synthesis
call's output verbatim — the output is stripped first. On the spec's
end-to-end scenario with the synthesis double returning
`" Approach 2 is best "`, the evaluation field is the stripped
`"Approach 2 is best"`, not the output itself. -/
theorem claim_C3_counterexample :
    ((tree_of_thought_explore (okOracle fun i =>
        if i = 3 then " Approach 2 is best " else ["A", "B", "C"].getD i "")
      0 "How can we reduce plastic waste?" 3).1.map
        (fun out => out.best_approach.evaluation)) = .ok "Approach 2 is best" ∧
    ("Approach 2 is best" : String) ≠ " Approach 2 is best " := by
  exact ⟨rfl, by decide⟩

/-- C3 amended: for `max_approaches` in [1,3] a successful exploration
returns the approaches in strict submission order — entry `i` (1-based)
has number `i`, the `i`-th fixed approach name, and the stripped `i`-th
generation result; the synthesis evaluation is the stripped synthesis
output, the selection criteria are the fixed 4-item list, and
`total_approaches` is the number of explored approaches. -/
theorem claim_C3_amended_exploration_structure (f : Nat → String) (k : Nat)
    (problem : String) (m : Int) (h1 : 1 ≤ m) (h2 : m ≤ 3) :
    ∃ out, (tree_of_thought_explore (okOracle f) k problem m).1 = .ok out ∧
      out.explored_approaches = (List.range (numApproaches m)).map (fun i =>
        Approach.mk (i + 1) (approach_names.getD i "") (pyStrip (f (k + i)))) ∧
      out.best_approach.evaluation = pyStrip (f (k + numApproaches m)) ∧
      out.best_approach.selection_criteria =
        ["effectiveness", "feasibility", "completeness", "innovation"] ∧
      out.total_approaches = numApproaches m := by
  interval_cases m
  · simp only [tree_of_thought_explore, show numApproaches 1 = 1 from by decide]
    rw [show approach_names.take 1 = ["Direct Analytical Method"] from rfl]
    rw [exploreLoop_okOracle]
    refine ⟨_, rfl, ?_, ?_, ?_, ?_⟩ <;>
      simp [approach_names, List.range_succ, List.getD,
        show numApproaches 1 = 1 from by decide]
  · simp only [tree_of_thought_explore, show numApproaches 2 = 2 from by decide]
    rw [show approach_names.take 2 =
      ["Direct Analytical Method", "Creative Innovation Method"] from rfl]
    rw [exploreLoop_okOracle]
    refine ⟨_, rfl, ?_, ?_, ?_, ?_⟩ <;>
      simp [approach_names, List.range_succ, List.getD,
        show numApproaches 2 = 2 from by decide]
  · simp only [tree_of_thought_explore, show numApproaches 3 = 3 from by decide]
    rw [show approach_names.take 3 = approach_names from rfl]
    rw [exploreLoop_okOracle]
    refine ⟨_, rfl, ?_, ?_, ?_, ?_⟩ <;>
      simp [approach_names, List.range_succ, List.getD,
        show numApproaches 3 = 3 from by decide]

/-- C3 witness: the spec's end-to-end scenario with the test double
returning "A", "B", "C" and synthesis text "Approach 2 is best". -/
theorem claim_C3_witness :
    ∃ out, (tree_of_thought_explore (okOracle fun i =>
        if i = 3 then "Approach 2 is best" else ["A", "B", "C"].getD i "")
      0 "How can we reduce plastic waste?" 3).1 = .ok out ∧
      out.explored_approaches = (List.range (numApproaches 3)).map (fun i =>
        Approach.mk (i + 1) (approach_names.getD i "")
          (pyStrip ((fun i =>
            if i = 3 then "Approach 2 is best" else ["A", "B", "C"].getD i "") (0 + i)))) ∧
      out.best_approach.evaluation = pyStrip ((fun i =>
        if i = 3 then "Approach 2 is best" else ["A", "B", "C"].getD i "")
          (0 + numApproaches 3)) ∧
      out.best_approach.selection_criteria =
        ["effectiveness", "feasibility", "completeness", "innovation"] ∧
      out.total_approaches = numApproaches 3 :=
  claim_C3_amended_exploration_structure
    (fun i => if i = 3 then "Approach 2 is best" else ["A", "B", "C"].getD i "")
    0 "How can we reduce plastic waste?" 3 (by omega) (by omega)

/-! ## Substring lemmas for the prompt-embedding claims -/

theorem occursIn_refl (s : String) : OccursIn s s := ⟨[], [], by simp⟩

theorem occursIn_trans {a b c : String} (h1 : OccursIn a b) (h2 : OccursIn b c) :
    OccursIn a c := by
  obtain ⟨u1, v1, e1⟩ := h1
  obtain ⟨u2, v2, e2⟩ := h2
  exact ⟨u2 ++ u1, v1 ++ v2, by simp [e2, e1]⟩

theorem occursIn_append_left (x : String) {n h : String} (hn : OccursIn n h) :
    OccursIn n (x ++ h) := by
  obtain ⟨u, v, e⟩ := hn
  exact ⟨x.data ++ u, v, by simp [String.data_append, e]⟩

theorem occursIn_append_right {n h : String} (x : String) (hn : OccursIn n h) :
    OccursIn n (h ++ x) := by
  obtain ⟨u, v, e⟩ := hn
  exact ⟨u, v ++ x.data, by simp [String.data_append, e]⟩

theorem occursIn_joinNl {x : String} :
    ∀ {L : List String}, x ∈ L → OccursIn x (joinNl L) := by
  intro L
  induction L with
  | nil => intro hx; simp at hx
  | cons y t ih =>
    intro hx
    rcases List.mem_cons.mp hx with rfl | hmem
    · cases t with
      | nil => exact occursIn_refl x
      | cons z t2 =>
        show OccursIn x ((x ++ "\n") ++ joinNl (z :: t2))
        exact occursIn_append_right _ (occursIn_append_right _ (occursIn_refl x))
    · cases t with
      | nil => simp at hmem
      | cons z t2 =>
        show OccursIn x ((y ++ "\n") ++ joinNl (z :: t2))
        exact occursIn_append_left _ (ih hmem)

theorem exists_enumFrom_mem {α : Type} {r : α} :
    ∀ (l : List α) (n : Nat), r ∈ l → ∃ i, (i, r) ∈ l.enumFrom n := by
  intro l
  induction l with
  | nil => intro n hr; simp at hr
  | cons y t ih =>
    intro n hr
    rcases List.mem_cons.mp hr with rfl | hmem
    · exact ⟨n, List.mem_cons_self _ _⟩
    · obtain ⟨i, hi⟩ := ih (n + 1) hmem
      exact ⟨i, List.mem_cons_of_mem _ hi⟩

/-- C7: the tree-of-thought synthesis prompt embeds each candidate's
solution truncated to its first 200 characters — the prompt depends
on a solution only through that prefix, which occurs verbatim in the
prompt — whereas the self-consistency synthesis prompt embeds every
sample's full text untruncated. -/
theorem claim_C7_truncation_vs_full_embedding :
    (∀ (problem : String) (l₁ l₂ : List Approach),
      l₁.map approachPreview = l₂.map approachPreview →
      selectBestPrompt problem l₁ = selectBestPrompt problem l₂) ∧
    (∀ (problem : String) (l : List Approach) (a : Approach), a ∈ l →
      OccursIn (pyTake 200 a.solution) (selectBestPrompt problem l)) ∧
    (∀ (question : String) (rs : List String) (r : String), r ∈ rs →
      OccursIn r (analyzeConsistencyPrompt question rs)) := by
  refine ⟨?_, ?_, ?_⟩
  · intro problem l₁ l₂ hp
    have hb : l₁.map approachBlock = l₂.map approachBlock := by
      have he : (approachBlock : Approach → String) =
          blockOfPreview ∘ approachPreview := funext fun a => rfl
      rw [he, ← List.map_map, ← List.map_map, hp]
    simp [selectBestPrompt, hb]
  · intro problem l a ha
    have h1 : OccursIn (pyTake 200 a.solution) (approachBlock a) :=
      ⟨("Approach " ++ toString a.approach_number ++ ": " ++ a.approach_name ++
        "\n" ++ "Solution: ").data, "...".data,
       by simp [approachBlock, String.data_append]⟩
    have h2 : OccursIn (approachBlock a) (joinNl (l.map approachBlock)) :=
      occursIn_joinNl (List.mem_map_of_mem approachBlock ha)
    show OccursIn (pyTake 200 a.solution)
      (("Problem: " ++ problem ++ "\n\nI have explored these different approaches:\n\n") ++
        joinNl (l.map approachBlock) ++
        "\n\nPlease evaluate these approaches and select the best one based on:\n1. Effectiveness in solving the problem\n2. Feasibility of implementation\n3. Completeness of the solution\n4. Innovation and creativity\n\nBest approach selection:")
    exact occursIn_append_right _ (occursIn_append_left _ (occursIn_trans h1 h2))
  · intro question rs r hr
    obtain ⟨i, hi⟩ := exists_enumFrom_mem rs 0 hr
    have h1 : OccursIn r (responseBlock (i, r)) :=
      ⟨("Response " ++ toString (i + 1) ++ ": ").data, [],
       by simp [responseBlock, String.data_append]⟩
    have h2 : OccursIn (responseBlock (i, r)) (joinNl (rs.enum.map responseBlock)) := by
      refine occursIn_joinNl (List.mem_map_of_mem responseBlock ?_)
      simpa [List.enum] using hi
    show OccursIn r
      (("Question: " ++ question ++ "\n\nI have these " ++ toString rs.length ++
        " different responses:\n\n") ++
        joinNl (rs.enum.map responseBlock) ++
        "\n\nPlease analyze these responses for consistency:\n1. What are the common themes or answers?\n2. What are the main differences?\n3. Which response seems most accurate and complete?\n4. What is the most consistent answer across all responses?\n\nConsistency analysis:")
    exact occursIn_append_right _ (occursIn_append_left _ (occursIn_trans h1 h2))

/-- C7 witness: two solutions agreeing on their first 200 characters
but differing at character 201 give the identical synthesis prompt;
a truncated preview and a full sample text occur in their prompts. -/
theorem claim_C7_witness :
    selectBestPrompt "P"
      [Approach.mk 1 "A" (String.mk (List.replicate 200 'a' ++ ['b']))] =
    selectBestPrompt "P"
      [Approach.mk 1 "A" (String.mk (List.replicate 200 'a' ++ ['c']))] ∧
    OccursIn (pyTake 200 (Approach.mk 1 "A" "sol").solution)
      (selectBestPrompt "P" [Approach.mk 1 "A" "sol"]) ∧
    OccursIn "r1" (analyzeConsistencyPrompt "Q" ["r1", "r2"]) := by
  refine ⟨?_, ?_, ?_⟩
  · refine claim_C7_truncation_vs_full_embedding.1 "P" _ _ ?_
    have h : ∀ c : Char, pyTake 200 (String.mk (List.replicate 200 'a' ++ [c])) =
        String.mk (List.replicate 200 'a') := fun c =>
      congrArg String.mk (List.take_left' (List.length_replicate _ _))
    exact congrArg (fun s => [((1 : Nat), ("A" : String), s)])
      ((h 'b').trans (h 'c').symm)
  · exact claim_C7_truncation_vs_full_embedding.2.1 "P" _ _ (by simp)
  · exact claim_C7_truncation_vs_full_embedding.2.2 "Q" ["r1", "r2"] "r1" (by simp)

/-! ## Claim C1: the extraction heuristic -/

theorem meaningfulL_eq (x : List Char) :
    meaningfulL x = decide (10 < (pyStripList x).length) := by
  unfold meaningfulL
  by_cases h : 10 < (pyStripList x).length
  · have hne : (pyStripList x).isEmpty = false := by
      cases hx : pyStripList x with
      | nil => rw [hx] at h; simp at h
      | cons a t => rfl
    simp [h, hne]
  · simp [h]

theorem filter_map_strip (L : List (List Char)) :
    (L.filter meaningfulL).map pyStripList =
      (L.map pyStripList).filter (fun l => decide (10 < l.length)) := by
  induction L with
  | nil => rfl
  | cons x t ih =>
    simp only [List.filter_cons, List.map_cons, meaningfulL_eq]
    by_cases h : 10 < (pyStripList x).length
    · simp [h, ih]
    · simp [h, ih]

/-- C1 counterexample: when the first keyword line carries surrounding
whitespace, `_extract_most_consistent_answer` returns it stripped, not
"exactly" as the claim states. -/
theorem claim_C1_counterexample :
    extract_most_consistent_answer "a\n  most consistent: yes  " =
      "most consistent: yes" ∧
    claimedExtract "a\n  most consistent: yes  " = "  most consistent: yes  " ∧
    extract_most_consistent_answer "a\n  most consistent: yes  " ≠
      claimedExtract "a\n  most consistent: yes  " := by
  exact ⟨by decide, by decide, by decide⟩

/-- C1 amended: for every analysis string, the extraction returns the
first keyword line stripped when one exists; otherwise the last line
of trimmed length greater than 10, trimmed; otherwise the fixed
sentinel "Analysis inconclusive". -/
theorem claim_C1_amended_extraction (s : String) :
    extract_most_consistent_answer s = claimedExtractStripped s := by
  unfold extract_most_consistent_answer claimedExtractStripped extractLines
  cases h : (pySplitNl s.data).find? kwL with
  | some line => simp [h]
  | none =>
    simp only [h, filter_map_strip]
    cases hl : ((pySplitNl s.data).map pyStripList).filter
        (fun l => decide (10 < l.length)) |>.getLast? with
    | some l => simp [hl]
    | none => simp [hl]

/-! ## Invariance of the extraction heuristic under stripping

`_extract_most_consistent_answer` is applied to the raw synthesis text
in `_analyze_consistency`, while the reported `analysis` field is the
stripped text.  The following development shows the heuristic gives
the same answer on both: stripping only removes whitespace at the two
ends of the text, which can neither create nor destroy a keyword
occurrence, nor change any line's stripped value. -/

theorem pyLowerChar_ws {c : Char} (h : isPyWs c = true) : pyLowerChar c = c := by
  simp only [isPyWs, Bool.or_eq_true, decide_eq_true_eq] at h
  rcases h with ((((h | h) | h) | h) | h) | h <;> subst h <;> decide

theorem pyStripList_cons_ws {c : Char} (h : isPyWs c = true) (l : List Char) :
    pyStripList (c :: l) = pyStripList l := by
  simp [pyStripList, List.dropWhile_cons, h]

theorem pyStripList_append_ws {c : Char} (h : isPyWs c = true) :
    ∀ l : List Char, pyStripList (l ++ [c]) = pyStripList l := by
  intro l
  induction l with
  | nil => simp [pyStripList, List.dropWhile_cons, h]
  | cons a t ih =>
    by_cases ha : isPyWs a = true
    · rw [List.cons_append, pyStripList_cons_ws ha, pyStripList_cons_ws ha, ih]
    · have e1 : List.dropWhile isPyWs (a :: (t ++ [c])) = a :: (t ++ [c]) := by
        simp [List.dropWhile_cons, ha]
      have e2 : List.dropWhile isPyWs (a :: t) = a :: t := by
        simp [List.dropWhile_cons, ha]
      simp only [List.cons_append, pyStripList, e1, e2]
      rw [show (a :: (t ++ [c])).reverse = c :: (t.reverse ++ [a]) from by simp]
      rw [show (a :: t).reverse = t.reverse ++ [a] from by simp]
      rw [List.dropWhile_cons]
      simp [h]

theorem meaningfulL_cons_ws {c : Char} (h : isPyWs c = true) (l : List Char) :
    meaningfulL (c :: l) = meaningfulL l := by
  unfold meaningfulL
  rw [pyStripList_cons_ws h]

theorem meaningfulL_append_ws {c : Char} (h : isPyWs c = true) (l : List Char) :
    meaningfulL (l ++ [c]) = meaningfulL l := by
  unfold meaningfulL
  rw [pyStripList_append_ws h]

theorem isPrefixOf_nil (kw : List Char) : kw.isPrefixOf ([] : List Char) = kw.isEmpty := by
  cases kw <;> rfl

theorem isPrefixOf_cons_ws {c k : Char} {kr m : List Char} (hc : isPyWs c = true)
    (hk : isPyWs k = false) : (k :: kr).isPrefixOf (c :: m) = false := by
  have hne : (k == c) = false := by
    cases hbe : k == c
    · rfl
    · rw [eq_of_beq hbe] at hk
      rw [hc] at hk
      exact absurd hk (by simp)
  simp [List.isPrefixOf, hne]

theorem listHasInfix_cons_ws {c k : Char} {kr : List Char} (hc : isPyWs c = true)
    (hk : isPyWs k = false) (m : List Char) :
    listHasInfix (k :: kr) (c :: m) = listHasInfix (k :: kr) m := by
  simp [listHasInfix, isPrefixOf_cons_ws hc hk]

theorem isPrefixOf_append_ws {c : Char} (hc : isPyWs c = true) :
    ∀ (kw m : List Char), (∀ k, kw.getLast? = some k → isPyWs k = false) →
    kw.isPrefixOf (m ++ [c]) = kw.isPrefixOf m := by
  intro kw
  induction kw with
  | nil => intro m _; cases m <;> rfl
  | cons k0 kr ih =>
    intro m hlast
    cases m with
    | nil =>
      cases kr with
      | nil =>
        have hk : isPyWs k0 = false := hlast k0 rfl
        have hne : (k0 == c) = false := by
          cases hbe : k0 == c
          · rfl
          · rw [eq_of_beq hbe] at hk
            rw [hc] at hk
            exact absurd hk (by simp)
        simp [List.isPrefixOf, hne]
      | cons k1 kr2 => simp [List.isPrefixOf, isPrefixOf_nil]
    | cons a mr =>
      have hlast' : ∀ k, kr.getLast? = some k → isPyWs k = false := by
        intro k hk
        apply hlast
        cases kr with
        | nil => simp at hk
        | cons k1 kr2 => rw [List.getLast?_cons_cons]; exact hk
      simp [List.isPrefixOf, ih mr hlast']

theorem listHasInfix_append_ws {c : Char} (hc : isPyWs c = true) (kw : List Char)
    (hlast : ∀ k, kw.getLast? = some k → isPyWs k = false) :
    ∀ m, listHasInfix kw (m ++ [c]) = listHasInfix kw m := by
  intro m
  induction m with
  | nil =>
    have h0 := isPrefixOf_append_ws hc kw [] hlast
    simp only [List.nil_append] at h0
    simp [listHasInfix, h0, isPrefixOf_nil]
  | cons a mr ih =>
    have h0 := isPrefixOf_append_ws hc kw (a :: mr) hlast
    rw [List.cons_append] at h0
    rw [List.cons_append]
    simp [listHasInfix, h0, ih]

theorem kw_needle1_last : ∀ k, ("most consistent".data).getLast? = some k →
    isPyWs k = false := by
  intro k hk
  rw [show ("most consistent".data).getLast? = some 't' from rfl] at hk
  rw [← Option.some.inj hk]
  decide

theorem kw_needle2_last : ∀ k, ("most reliable".data).getLast? = some k →
    isPyWs k = false := by
  intro k hk
  rw [show ("most reliable".data).getLast? = some 'e' from rfl] at hk
  rw [← Option.some.inj hk]
  decide

theorem kwL_cons_ws {c : Char} (hc : isPyWs c = true) (x : List Char) :
    kwL (c :: x) = kwL x := by
  unfold kwL
  rw [List.map_cons, pyLowerChar_ws hc]
  rw [show ("most consistent".data) = 'm' :: "ost consistent".data from rfl]
  rw [show ("most reliable".data) = 'm' :: "ost reliable".data from rfl]
  rw [listHasInfix_cons_ws hc (by decide), listHasInfix_cons_ws hc (by decide)]

theorem kwL_append_ws {c : Char} (hc : isPyWs c = true) (x : List Char) :
    kwL (x ++ [c]) = kwL x := by
  unfold kwL
  rw [List.map_append]
  rw [show List.map pyLowerChar [c] = [c] from by simp [pyLowerChar_ws hc]]
  rw [listHasInfix_append_ws hc _ kw_needle1_last, listHasInfix_append_ws hc _ kw_needle2_last]

theorem pySplitNl_ne_nil (l : List Char) : pySplitNl l ≠ [] := by
  cases l with
  | nil => simp [pySplitNl]
  | cons c rest =>
    unfold pySplitNl
    split
    · simp
    · split <;> simp

theorem pySplitNl_cons_newline (l : List Char) :
    pySplitNl ('\n' :: l) = [] :: pySplitNl l := by
  simp [pySplitNl]

theorem pySplitNl_cons_char {c : Char} (hnl : ¬ c = '\n') {l : List Char}
    {h0 : List Char} {t : List (List Char)} (hL : pySplitNl l = h0 :: t) :
    pySplitNl (c :: l) = (c :: h0) :: t := by
  unfold pySplitNl
  rw [if_neg hnl, hL]

theorem pySplitNl_append_newline : ∀ l : List Char,
    pySplitNl (l ++ ['\n']) = pySplitNl l ++ [[]] := by
  intro l
  induction l with
  | nil => rfl
  | cons a t ih =>
    by_cases ha : a = '\n'
    · subst ha
      rw [List.cons_append, pySplitNl_cons_newline, pySplitNl_cons_newline, ih]
      rfl
    · obtain ⟨h0, t', hT⟩ : ∃ h0 t', pySplitNl t = h0 :: t' := by
        cases hT : pySplitNl t with
        | nil => exact absurd hT (pySplitNl_ne_nil t)
        | cons x xs => exact ⟨x, xs, rfl⟩
      have hT' : pySplitNl (t ++ ['\n']) = h0 :: (t' ++ [[]]) := by
        rw [ih, hT]; rfl
      rw [List.cons_append, pySplitNl_cons_char ha hT', pySplitNl_cons_char ha hT]
      rfl

theorem pySplitNl_append_char {c : Char} (hnl : ¬ c = '\n') : ∀ l : List Char,
    pySplitNl (l ++ [c]) = onLast (· ++ [c]) (pySplitNl l) := by
  intro l
  induction l with
  | nil =>
    rw [List.nil_append]
    rw [show pySplitNl [c] = [[c]] from by unfold pySplitNl; rw [if_neg hnl]; rfl]
    rfl
  | cons a t ih =>
    obtain ⟨h0, t', hT⟩ : ∃ h0 t', pySplitNl t = h0 :: t' := by
      cases hT : pySplitNl t with
      | nil => exact absurd hT (pySplitNl_ne_nil t)
      | cons x xs => exact ⟨x, xs, rfl⟩
    by_cases ha : a = '\n'
    · subst ha
      rw [List.cons_append, pySplitNl_cons_newline, ih, pySplitNl_cons_newline, hT]
      rfl
    · rw [List.cons_append]
      have hT' : pySplitNl (t ++ [c]) = onLast (· ++ [c]) (h0 :: t') := by
        rw [ih, hT]
      cases t' with
      | nil =>
        rw [pySplitNl_cons_char ha (by rw [hT']; rfl), pySplitNl_cons_char ha hT]
        rfl
      | cons y t2 =>
        rw [pySplitNl_cons_char ha (by rw [hT']; rfl), pySplitNl_cons_char ha hT]
        rfl

theorem extractLines_congr_head {a b : List Char} (T : List (List Char))
    (hkw : kwL a = kwL b) (hstrip : pyStripList a = pyStripList b)
    (hm : meaningfulL a = meaningfulL b) :
    extractLines (a :: T) = extractLines (b :: T) := by
  unfold extractLines
  cases hka : kwL a with
  | true =>
    have hkb : kwL b = true := by rw [← hkw, hka]
    rw [List.find?_cons_of_pos _ hka, List.find?_cons_of_pos _ hkb]
    exact hstrip
  | false =>
    have hkb : kwL b = false := by rw [← hkw, hka]
    rw [List.find?_cons_of_neg _ (by simp [hka]), List.find?_cons_of_neg _ (by simp [hkb])]
    cases hfT : T.find? kwL with
    | some line => rfl
    | none =>
      simp only
      rw [List.filter_cons, List.filter_cons, ← hm]
      cases hma : meaningfulL a with
      | true => simp [hstrip]
      | false => simp

theorem extractLines_cons_trivial {x : List Char} (T : List (List Char))
    (hkw : kwL x = false) (hm : meaningfulL x = false) :
    extractLines (x :: T) = extractLines T := by
  unfold extractLines
  rw [List.find?_cons_of_neg _ (by simp [hkw])]
  cases hfT : T.find? kwL with
  | some line => rfl
  | none =>
    simp only
    rw [List.filter_cons, hm]
    simp

theorem find?_append_singleton_neg {α : Type} {p : α → Bool} {x : α}
    (hx : p x = false) : ∀ L : List α, (L ++ [x]).find? p = L.find? p := by
  intro L
  induction L with
  | nil => simp [List.find?, hx]
  | cons a t ih =>
    by_cases hpa : p a = true
    · rw [List.cons_append, List.find?_cons_of_pos _ hpa, List.find?_cons_of_pos _ hpa]
    · rw [List.cons_append, List.find?_cons_of_neg _ (by simp [hpa]),
        List.find?_cons_of_neg _ (by simp [hpa]), ih]

theorem filter_append_singleton_neg {α : Type} {p : α → Bool} {x : α}
    (hx : p x = false) (L : List α) : (L ++ [x]).filter p = L.filter p := by
  rw [List.filter_append]
  simp [List.filter_cons, hx]

theorem extractLines_append_trivial {x : List Char} (L : List (List Char))
    (hkw : kwL x = false) (hm : meaningfulL x = false) :
    extractLines (L ++ [x]) = extractLines L := by
  unfold extractLines
  rw [find?_append_singleton_neg hkw, filter_append_singleton_neg hm]

theorem extractLines_eq_of {T₁ T₂ : List (List Char)}
    (h1 : Option.map pyStripList (T₁.find? kwL) = Option.map pyStripList (T₂.find? kwL))
    (h2 : (T₁.filter meaningfulL).map pyStripList =
      (T₂.filter meaningfulL).map pyStripList) :
    extractLines T₁ = extractLines T₂ := by
  unfold extractLines
  cases hf1 : T₁.find? kwL with
  | some a =>
    cases hf2 : T₂.find? kwL with
    | some b =>
      rw [hf1, hf2] at h1
      have hab : pyStripList a = pyStripList b := by simpa using h1
      exact hab
    | none =>
      rw [hf1, hf2] at h1
      simp at h1
  | none =>
    cases hf2 : T₂.find? kwL with
    | some b =>
      rw [hf1, hf2] at h1
      simp at h1
    | none =>
      rw [h2]

theorem find?_onLast {g : List Char → List Char}
    (hg : ∀ x, kwL (g x) = kwL x)
    (hs : ∀ x, pyStripList (g x) = pyStripList x) :
    ∀ L : List (List Char),
    Option.map pyStripList ((onLast g L).find? kwL) =
      Option.map pyStripList (L.find? kwL) := by
  intro L
  induction L with
  | nil => rfl
  | cons x T ih =>
    cases T with
    | nil =>
      show Option.map pyStripList ([g x].find? kwL) =
        Option.map pyStripList ([x].find? kwL)
      cases hkx : kwL x with
      | true =>
        rw [List.find?_cons_of_pos _ (by rw [hg x]; exact hkx),
          List.find?_cons_of_pos _ hkx]
        simp [hs x]
      | false =>
        rw [List.find?_cons_of_neg _ (by simp [hg x, hkx]),
          List.find?_cons_of_neg _ (by simp [hkx])]
    | cons y t2 =>
      show Option.map pyStripList ((x :: onLast g (y :: t2)).find? kwL) =
        Option.map pyStripList ((x :: y :: t2).find? kwL)
      cases hkx : kwL x with
      | true =>
        rw [List.find?_cons_of_pos _ hkx, List.find?_cons_of_pos _ hkx]
      | false =>
        rw [List.find?_cons_of_neg _ (by simp [hkx]),
          List.find?_cons_of_neg _ (by simp [hkx])]
        exact ih

theorem filter_onLast {g : List Char → List Char}
    (hs : ∀ x, pyStripList (g x) = pyStripList x)
    (hm : ∀ x, meaningfulL (g x) = meaningfulL x) :
    ∀ L : List (List Char),
    ((onLast g L).filter meaningfulL).map pyStripList =
      (L.filter meaningfulL).map pyStripList := by
  intro L
  induction L with
  | nil => rfl
  | cons x T ih =>
    cases T with
    | nil =>
      show ([g x].filter meaningfulL).map pyStripList =
        ([x].filter meaningfulL).map pyStripList
      rw [List.filter_cons, List.filter_cons, hm x]
      cases hmx : meaningfulL x with
      | true => simp [hs x]
      | false => simp
    | cons y t2 =>
      show ((x :: onLast g (y :: t2)).filter meaningfulL).map pyStripList =
        ((x :: y :: t2).filter meaningfulL).map pyStripList
      rw [List.filter_cons, List.filter_cons]
      cases hmx : meaningfulL x with
      | true => simp [ih]
      | false => simpa using ih

theorem extract_cons_ws {c : Char} (hc : isPyWs c = true) (l : List Char) :
    extractLines (pySplitNl (c :: l)) = extractLines (pySplitNl l) := by
  by_cases hnl : c = '\n'
  · subst hnl
    rw [pySplitNl_cons_newline]
    exact extractLines_cons_trivial _ (by decide) (by decide)
  · obtain ⟨h0, t, hL⟩ : ∃ h0 t, pySplitNl l = h0 :: t := by
      cases hT : pySplitNl l with
      | nil => exact absurd hT (pySplitNl_ne_nil l)
      | cons x xs => exact ⟨x, xs, rfl⟩
    rw [pySplitNl_cons_char hnl hL, hL]
    exact extractLines_congr_head t (kwL_cons_ws hc h0)
      (pyStripList_cons_ws hc h0) (meaningfulL_cons_ws hc h0)

theorem extract_append_ws {c : Char} (hc : isPyWs c = true) (l : List Char) :
    extractLines (pySplitNl (l ++ [c])) = extractLines (pySplitNl l) := by
  by_cases hnl : c = '\n'
  · subst hnl
    rw [pySplitNl_append_newline]
    exact extractLines_append_trivial _ (by decide) (by decide)
  · rw [pySplitNl_append_char hnl]
    exact extractLines_eq_of
      (find?_onLast (kwL_append_ws hc) (pyStripList_append_ws hc) _)
      (filter_onLast (pyStripList_append_ws hc) (meaningfulL_append_ws hc) _)

theorem extract_dropWhile_front (l : List Char) :
    extractLines (pySplitNl (l.dropWhile isPyWs)) = extractLines (pySplitNl l) := by
  induction l with
  | nil => rfl
  | cons a t ih =>
    by_cases ha : isPyWs a = true
    · rw [List.dropWhile_cons, if_pos ha, ih, extract_cons_ws ha]
    · rw [List.dropWhile_cons, if_neg (by simp [ha])]

theorem extract_stripRight (r : List Char) :
    extractLines (pySplitNl ((r.dropWhile isPyWs).reverse)) =
      extractLines (pySplitNl r.reverse) := by
  induction r with
  | nil => rfl
  | cons a t ih =>
    by_cases ha : isPyWs a = true
    · rw [List.dropWhile_cons, if_pos ha, ih, List.reverse_cons, extract_append_ws ha]
    · rw [List.dropWhile_cons, if_neg (by simp [ha])]

/-- The extraction heuristic is invariant under stripping its input:
applying `_extract_most_consistent_answer` to the raw synthesis text
and to the stripped synthesis text gives the same answer. -/
theorem extract_pyStrip (s : String) :
    extract_most_consistent_answer (pyStrip s) = extract_most_consistent_answer s := by
  show String.mk (extractLines (pySplitNl (pyStripList s.data))) =
    String.mk (extractLines (pySplitNl s.data))
  refine congrArg String.mk ?_
  unfold pyStripList
  calc extractLines (pySplitNl (((s.data.dropWhile isPyWs).reverse.dropWhile isPyWs).reverse))
      = extractLines (pySplitNl ((s.data.dropWhile isPyWs).reverse.reverse)) :=
        extract_stripRight (s.data.dropWhile isPyWs).reverse
    _ = extractLines (pySplitNl (s.data.dropWhile isPyWs)) := by rw [List.reverse_reverse]
    _ = extractLines (pySplitNl s.data) := extract_dropWhile_front s.data

/-- C9: in every successful `self_consistency_validate` result the
top-level `final_answer` equals the `most_consistent_answer` field of
the consistency analysis — the two can never disagree — and both are
the value of `_extract_most_consistent_answer` on the stripped
synthesis text, which is exactly the reported `analysis` field. -/
theorem claim_C9_final_answer_agrees (f : Nat → String) (k : Nat)
    (question : String) (N : Nat) :
    ∃ out, (self_consistency_validate (okOracle f) k question N).1 = .ok out ∧
      out.final_answer = out.consistency_analysis.most_consistent_answer ∧
      out.final_answer =
        extract_most_consistent_answer out.consistency_analysis.analysis ∧
      out.consistency_analysis.analysis = pyStrip (f (k + N)) := by
  rw [self_consistency_okOracle]
  refine ⟨_, rfl, rfl, ?_, rfl⟩
  show extract_most_consistent_answer (f (k + N)) =
    extract_most_consistent_answer (pyStrip (f (k + N)))
  exact (extract_pyStrip (f (k + N))).symm

/-- C10 witness: `max_approaches = 0` succeeds with no approaches. -/
theorem claim_C10_witness :
    (tree_of_thought_explore (okOracle fun _ => "EV") 0 "P" 0).1 =
      .ok (TreeOutput.mk []
        (BestApproach.mk "EV"
          ["effectiveness", "feasibility", "completeness", "innovation"]) 0) ∧
    (tree_of_thought_explore (okOracle fun _ => "EV") 0 "P" 0).2 =
      [GenCall.mk (selectBestPrompt "P" []) 0.3] :=
  claim_C10_no_lower_bound (fun _ => "EV") 0 "P" 0 (by omega)

end PromptingSystem
